import Mathlib

/-
Verification of the Streamlit portfolio tracker's numeric core.

The Python sources (My_portfolio.py, pages/2_Portfolio_Analysis.py,
pages/Risk.py, pages/Dividends.py) are shallowly embedded below:
pandas/numpy floats become ℚ, float NaN/±inf become an explicit
`PdFloat` codomain where the distinction matters, a missing value
(None / float NaN in a price column) becomes `Option ℚ`, and the
SQLite holdings table becomes a list of rows.  Streamlit rendering,
plotting and the yfinance network layer are out of scope; provider
lookups enter as function arguments (`String → Option ℚ`, etc.),
matching the code's `get_current_price` which returns None on failure.
-/

/-! ## Holdings store (My_portfolio.py: table `stocks`, `update_stock`) -/

/-- A row of the SQLite `stocks` table:
`(id INTEGER PRIMARY KEY, ticker TEXT, account TEXT, shares REAL, cost_basis REAL)`. -/
structure StockRow where
  id : ℕ
  ticker : String
  account : String
  shares : ℚ
  cost_basis : ℚ
deriving DecidableEq, Repr

/-- `update_stock(id, account, shares, cost_basis)` from My_portfolio.py:
`if shares > 0` it runs `UPDATE stocks SET account, shares, cost_basis WHERE id`,
otherwise `DELETE FROM stocks WHERE id`.  SQL `UPDATE ... WHERE id` rewrites every
matching row in place; `DELETE ... WHERE id` removes the matching rows. -/
def update_stock (i : ℕ) (acct : String) (sh cb : ℚ) (store : List StockRow) : List StockRow :=
  if sh > 0 then
    store.map (fun r => if r.id = i then { r with account := acct, shares := sh, cost_basis := cb } else r)
  else
    store.filter (fun r => r.id != i)

/-- A concrete two-row store used by witness theorems. -/
def demoStore : List StockRow :=
  [⟨1, "AAPL", "Webull", 5, 10⟩, ⟨2, "MSFT", "Fidelity", 3, 20⟩]

/-! ## Valuation (My_portfolio.py `main`, lines 84-87) -/

/-- A holding as consumed by the valuation pass (one row of the portfolio frame). -/
structure Position where
  ticker : String
  account : String
  shares : ℚ
  cost_basis : ℚ

/-- `display_df['Total Value'] = display_df['shares'] * display_df['Current Price']`:
the market value of one position; `None` (pandas NaN) when the price lookup
`get_current_price` failed for the ticker. -/
def marketValue (price : String → Option ℚ) (p : Position) : Option ℚ :=
  (price p.ticker).map (fun c => p.shares * c)

/-- pandas `Series.sum()` with its default `skipna=True`: NaN cells contribute
nothing to the sum. -/
def pdSumOpt (l : List (Option ℚ)) : ℚ :=
  (l.filterMap id).sum

/-- `total_portfolio_value = display_df['Total Value'].sum()` (My_portfolio.py line 86):
sums the per-position market values, skipping positions whose value is NaN. -/
def total_portfolio_value (price : String → Option ℚ) (ps : List Position) : ℚ :=
  pdSumOpt (ps.map (marketValue price))

/-- Stated from the spec's words for the refinement check: the total equals the sum
of `shares × price` over exactly the positions whose current price is defined. -/
def definedTotal (price : String → Option ℚ) (ps : List Position) : ℚ :=
  ((ps.filter (fun p => (price p.ticker).isSome)).map
    (fun p => p.shares * ((price p.ticker).getD 0))).sum

/-! ## Dividends (pages/Dividends.py) -/

/-- The yfinance `info` fields consumed by `get_dividend_info`; each is absent
(`None` / missing key) or a number.  `payoutFraction` embeds the provider's
`payoutRatio` field, `exDividendDate` the epoch timestamp. -/
structure Fundamentals where
  dividendRate : Option ℚ
  dividendYield : Option ℚ
  payoutFraction : Option ℚ
  exDividendDate : Option Int

/-- One entry of `dividend_data` (the dict built by `get_dividend_info`).
The ex-dividend date is kept as the raw optional timestamp; its month-day-year
string formatting is presentation only. -/
structure DividendRecord where
  ticker : String
  shares : ℚ
  dividend_rate : ℚ
  dividend_yield : ℚ
  payout_pct : ℚ
  ex_dividend_date : Option Int
  yearly_dividend_total : ℚ

/-- `get_dividend_info(ticker, shares)` from Dividends.py: returns None unless
`'dividendRate' in info and info['dividendRate'] is not None`; otherwise builds the
record.  `info.get('dividendYield', 0) * 100 if info.get('dividendYield') else 0`
equals `(yield.getD 0) * 100` (the truthiness test only reroutes the value 0,
and 0 * 100 = 0); likewise for the payout field. -/
def get_dividend_info (info : Fundamentals) (ticker : String) (shares : ℚ) :
    Option DividendRecord :=
  match info.dividendRate with
  | none => none
  | some rate =>
      some { ticker := ticker
             shares := shares
             dividend_rate := rate
             dividend_yield := (info.dividendYield.getD 0) * 100
             payout_pct := (info.payoutFraction.getD 0) * 100
             ex_dividend_date := info.exDividendDate
             yearly_dividend_total := shares * rate }

/-- The `dividend_data` list built in `main`: one call per portfolio row
(ticker, shares), keeping only the non-None results. -/
def dividend_data (fund : String → Fundamentals) (portfolio : List (String × ℚ)) :
    List DividendRecord :=
  portfolio.filterMap (fun r => get_dividend_info (fund r.1) r.1 r.2)

/-- The `f"{x:.2f}"`-format-then-parse round trip applied to the displayed
dollar and percent columns: rounding to 2 decimal places. -/
def round2 (q : ℚ) : ℚ :=
  ((round (q * 100) : ℤ) : ℚ) / 100

/-- `total_yearly_dividends = df['Total'].apply(lambda x: float(x.replace('$',''))).sum()`:
sum of the 2-decimal-formatted per-position yearly totals. -/
def total_yearly_dividends (recs : List DividendRecord) : ℚ :=
  (recs.map (fun r => round2 r.yearly_dividend_total)).sum

/-- `average_yield = df['Yield'].mean()` over the formatted yield column.  The
page only reaches this line when `dividend_data` is nonempty (`if dividend_data:`);
a pandas mean of an empty column would be NaN, embedded as `none`. -/
def average_yield (recs : List DividendRecord) : Option ℚ :=
  if recs.isEmpty then none
  else some ((recs.map (fun r => round2 r.dividend_yield)).sum / recs.length)

/-- The spec's dividend scenario, provider side: ticker PAY pays $2.00/share
with arbitrary further fundamentals; every other ticker reports a null
dividend rate (a non-payer). -/
def scenarioFund (y pr : Option ℚ) (e : Option Int) (othY othPr : Option ℚ)
    (othE : Option Int) : String → Fundamentals :=
  fun t => if t = "PAY" then ⟨some 2, y, pr, e⟩ else ⟨none, othY, othPr, othE⟩

/-- The spec's dividend scenario, holdings side: 10 shares of the payer PAY and
an arbitrary number of shares of the non-payer OTHER. -/
def scenarioPortfolio (s2 : ℚ) : List (String × ℚ) :=
  [("PAY", 10), ("OTHER", s2)]

/-! ## Price-history fill and returns (pages/Risk.py lines 69-74,
pages/2_Portfolio_Analysis.py lines 62-67) -/

/-- `df_prices.bfill(inplace=True)` acting on one price column: each missing cell
takes the value of the next (same-or-later) observed cell; a cell with no
subsequent observation stays missing.  Recursively, position 0 of the output is
the cell itself when observed, otherwise the head of the backward-filled tail. -/
def bfill : List (Option ℚ) → List (Option ℚ)
  | [] => []
  | x :: xs =>
      (match x with
       | some v => some v
       | none => (bfill xs).headD none) :: bfill xs

/-- Stated from the spec's words for the refinement check: "the nearest
subsequent actual trade price" for position `t` — the first observed value at
index `t` or later. -/
def firstSubsequentObs (l : List (Option ℚ)) (t : ℕ) : Option ℚ :=
  (l.drop t).findSome? id

/-- Forward fill from a running previous value: the helper for pandas
`pct_change`'s default `fill_method='pad'`. -/
def ffillFrom (prev : Option ℚ) : List (Option ℚ) → List (Option ℚ)
  | [] => []
  | x :: xs =>
      match x with
      | some v => some v :: ffillFrom (some v) xs
      | none => prev :: ffillFrom prev xs

/-- pandas forward fill (`method='pad'`) on one column. -/
def ffill (l : List (Option ℚ)) : List (Option ℚ) :=
  ffillFrom none l

/-- One cell of `pct_change`: `b / a - 1` from the previous and current (padded)
cells.  `none` embeds a float result that is not a finite number — the cell is
missing, or the previous price is 0 so the float division yields NaN/±inf. -/
def retCell (a b : Option ℚ) : Option ℚ :=
  match a, b with
  | some av, some bv => if av = 0 then none else some (bv / av - 1)
  | _, _ => none

/-- `df_prices.pct_change(1)` on one column: pandas pads missing cells forward
(default `fill_method='pad'`), then each row becomes the period-over-period
change against the previous row; the first row is always missing.  The output
has one cell per input date — no row is dropped. -/
def pct_change (l : List (Option ℚ)) : List (Option ℚ) :=
  match ffill l with
  | [] => []
  | y₀ :: ys => none :: List.zipWith retCell (y₀ :: ys) ys

/-! ## Covariance and portfolio variance (pages/Risk.py lines 74-79,
pages/2_Portfolio_Analysis.py lines 67-72) -/

/-- Mean of column `j` of an `n × k` return table. -/
def colMean {n k : ℕ} (x : Fin n → Fin k → ℚ) (j : Fin k) : ℚ :=
  (∑ t, x t j) / n

/-- Entry `(i, j)` of `returns_df.cov()`: the sample covariance of columns `i`
and `j` with Bessel's correction (denominator `N - 1`), pandas' convention on a
table with no missing cells.  This rational form is exact for tables with at
least two rows; with fewer rows pandas produces NaN where the rational
convention gives `x / 0 = 0` — that degenerate case is modelled faithfully by
`covEntryF` below. -/
def covEntry {n k : ℕ} (x : Fin n → Fin k → ℚ) (i j : Fin k) : ℚ :=
  (∑ t, (x t i - colMean x i) * (x t j - colMean x j)) / ((n : ℚ) - 1)

/-- Stated from the spec's words for the refinement check: the sample variance
(denominator `N - 1`) of column `j`, the square of `np.std(..., ddof=1)`. -/
def sampleVarCol {n k : ℕ} (x : Fin n → Fin k → ℚ) (j : Fin k) : ℚ :=
  (∑ t, (x t j - colMean x j) ^ 2) / ((n : ℚ) - 1)

/-- The covariance matrix `vcv_matrix` as the nested list `np.dot` receives. -/
def covList (n k : ℕ) (x : Fin n → Fin k → ℚ) : List (List ℚ) :=
  List.ofFn (fun i => List.ofFn (fun j => covEntry x i j))

/-- Sum of pairwise products of two equal-length vectors (the arithmetic core
of `np.dot`); extra elements of the longer vector are never reached because the
callers check lengths first. -/
def dotList : List ℚ → List ℚ → ℚ
  | a :: as, b :: bs => a * b + dotList as bs
  | _, _ => 0

/-- `np.dot(vector, vector)`: raises `ValueError: shapes not aligned` when the
lengths differ, otherwise the scalar product. -/
def np_dot_vv (a b : List ℚ) : Except String ℚ :=
  if a.length = b.length then .ok (dotList a b) else .error "shapes not aligned"

/-- `np.dot(matrix, vector)`: raises `ValueError: shapes not aligned` when the
row length differs from the vector length, otherwise the matrix-vector product. -/
def np_dot_mv (m : List (List ℚ)) (v : List ℚ) : Except String (List ℚ) :=
  if m.all (fun row => row.length == v.length) then .ok (m.map (fun row => dotList row v))
  else .error "shapes not aligned"

/-- `var_p = np.dot(np.transpose(weights_list), np.dot(vcv_matrix, weights_list))`
(Risk.py line 78): `np.transpose` of a 1-D vector is the identity, so this is the
inner matrix-vector product followed by the outer scalar product, each step
failing on a dimension mismatch exactly as `np.dot` does. -/
def var_p (mat : List (List ℚ)) (w : List ℚ) : Except String ℚ :=
  match np_dot_mv mat w with
  | .ok u => np_dot_vv w u
  | .error e => .error e

/-- The quadratic form `wᵀ · Σ · w` over the sample covariance matrix of `x`. -/
def quadForm {n k : ℕ} (x : Fin n → Fin k → ℚ) (w : Fin k → ℚ) : ℚ :=
  ∑ i, ∑ j, w i * covEntry x i j * w j

/-- A concrete 2 × 2 return table for witness theorems. -/
def x0 : Fin 2 → Fin 2 → ℚ :=
  fun t j => (t : ℚ) + 2 * (j : ℚ)

/-- A concrete weight vector for witness theorems. -/
def w0 : Fin 2 → ℚ :=
  fun _ => 1

/-! ## Risk ranking (pages/Risk.py line 86: `individual_risks.sort_values(ascending=False)`) -/

/-- Comparison by the volatility component: pandas `sort_values` orders a Series
by its values alone — the ticker index labels are carried along, never compared. -/
def valLe (a b : String × ℚ) : Prop :=
  a.2 ≤ b.2

instance : DecidableRel valLe :=
  fun a b => inferInstanceAs (Decidable (a.2 ≤ b.2))

instance : IsTotal (String × ℚ) valLe :=
  ⟨fun a b => le_total a.2 b.2⟩

instance : IsTrans (String × ℚ) valLe :=
  ⟨fun _ _ _ hab hbc => le_trans hab hbc⟩

/-- `individual_risks.sort_values(ascending=False)` on (ticker, volatility)
pairs: pandas argsorts the values ascending and reverses the result for
descending order.  The default kind `quicksort` leaves the relative order of
equal values implementation-defined; it is embedded here as a stable ascending
sort followed by a reversal, which is what numpy's small-array insertion sort
produces.  No theorem below depends on the tie order except the recorded
counterexample, whose point — the ticker labels are never consulted — holds for
any value-only sort. -/
def sort_values_desc (xs : List (String × ℚ)) : List (String × ℚ) :=
  (List.insertionSort valLe xs).reverse

/-! ## Portfolio value series and Sharpe ratio (pages/2_Portfolio_Analysis.py
lines 86-102) -/

/-- The `Total Value` column of `prices_df` (2_Portfolio_Analysis.py lines 87-92):
each ticker column is scaled by its share count, then
`prices_df['Total Value'] = prices_df.iloc[:, 1:].sum(axis=1)` sums each row of
the frame **starting from the second column**, so the first ticker's scaled
column is left out of every row sum. -/
def totalValueSeries (prices : List (List ℚ)) (shares : List ℚ) : List ℚ :=
  prices.map (fun row => ((List.zipWith (fun p sh => p * sh) row shares).drop 1).sum)

/-- Stated from the spec's words for the refinement check: for each date the
portfolio value is the sum over every ticker of price times shares held. -/
def specPortfolioValueSeries (prices : List (List ℚ)) (shares : List ℚ) : List ℚ :=
  prices.map (fun row => (List.zipWith (fun p sh => p * sh) row shares).sum)

/-- The value of a pandas/numpy float scalar: a finite number, NaN, or a signed
infinity.  Finite values are embedded as rationals. -/
inductive PdFloat where
  | val : ℚ → PdFloat
  | nan : PdFloat
  | inf : PdFloat
  | ninf : PdFloat
deriving DecidableEq, Repr

/-- The finite value of a `PdFloat`, defaulting to 0. -/
def PdFloat.toQ : PdFloat → ℚ
  | .val q => q
  | _ => 0

/-- IEEE-754 division as numpy performs it on scalars: `0/0` is NaN, `x/0` is a
signed infinity, NaN propagates, `finite/±inf` is 0 (the sign of that zero is
dropped — no theorem below distinguishes `+0.0` from `-0.0`). -/
def pdDiv (a b : PdFloat) : PdFloat :=
  match a, b with
  | .nan, _ => .nan
  | _, .nan => .nan
  | .val q1, .val q2 =>
      if q2 = 0 then (if q1 = 0 then .nan else if 0 < q1 then .inf else .ninf)
      else .val (q1 / q2)
  | .inf, .val q2 => if q2 < 0 then .ninf else .inf
  | .ninf, .val q2 => if q2 < 0 then .inf else .ninf
  | .val _, .inf => .val 0
  | .val _, .ninf => .val 0
  | _, _ => .nan

/-- One cell of `prices_df['Total Value'].pct_change().fillna(0) * 100` after the
first: `(b / a - 1) * 100` as floats.  A previous value of 0 makes the float
division produce NaN (when `b = 0`, later replaced by `fillna(0)`) or a signed
infinity (when `b ≠ 0`, untouched by `fillna`). -/
def pctRet (a b : ℚ) : PdFloat :=
  if a = 0 then (if b = 0 then .val 0 else if 0 < b then .inf else .ninf)
  else .val ((b / a - 1) * 100)

/-- `prices_df["return"] = prices_df['Total Value'].pct_change().fillna(0) * 100`
(2_Portfolio_Analysis.py line 95): the first cell's NaN is replaced by 0, the
rest are period-over-period percent changes. -/
def dailyReturns : List ℚ → List PdFloat
  | [] => []
  | v :: vs => .val 0 :: List.zipWith pctRet (v :: vs) vs

/-- pandas `Series.mean()` (`skipna=True`): NaNs are dropped; a surviving
infinity dominates, two opposite infinities or an empty series give NaN. -/
def pdMeanL (l : List PdFloat) : PdFloat :=
  let l' := l.filter (fun x => x != PdFloat.nan)
  if l'.any (fun x => x == PdFloat.inf) then
    (if l'.any (fun x => x == PdFloat.ninf) then .nan else .inf)
  else if l'.any (fun x => x == PdFloat.ninf) then .ninf
  else if l'.isEmpty then .nan
  else .val ((l'.map PdFloat.toQ).sum / l'.length)

/-- Sample variance (denominator `N - 1`) of a list of rationals. -/
def sampleVarL (xs : List ℚ) : ℚ :=
  (xs.map (fun v => (v - xs.sum / xs.length) ^ 2)).sum / ((xs.length : ℚ) - 1)

/-- pandas `Series.std()` (`ddof=1`, `skipna=True`): NaN with fewer than two
non-NaN observations or with any infinite observation, otherwise the square
root of the sample variance.  `sqrtFn` abstracts the real square root, which
has no exact rational counterpart; every theorem below needs only its value at
arguments where it is exact. -/
def pdStdL (sqrtFn : ℚ → ℚ) (l : List PdFloat) : PdFloat :=
  let l' := l.filter (fun x => x != PdFloat.nan)
  if l'.length < 2 then .nan
  else if l'.any (fun x => x == PdFloat.inf || x == PdFloat.ninf) then .nan
  else .val (sqrtFn (sampleVarL (l'.map PdFloat.toQ)))

/-- The numpy `.round(3)` applied to a finite scalar. -/
def round3 (q : ℚ) : ℚ :=
  ((round (q * 1000) : ℤ) : ℚ) / 1000

/-- `sharpe_ratio = ((prices_df["return"].mean() / prices_df["return"].std()) *
np.sqrt(250)).round(3)` (2_Portfolio_Analysis.py line 98): mean over standard
deviation of the portfolio daily-return series, annualized by `sqrtFn 250`
(standing for `np.sqrt(250)`) and rounded to 3 decimals; NaN and infinities pass
through the multiplication and rounding unchanged. -/
def portfolioSharpe (sqrtFn : ℚ → ℚ) (v : List ℚ) : PdFloat :=
  let r := dailyReturns v
  match pdDiv (pdMeanL r) (pdStdL sqrtFn r) with
  | .val q => .val (round3 (q * sqrtFn 250))
  | x => x

/-- A computable stand-in for the real square root: exact on squares of
naturals divided by squares of naturals, and in particular `ratSqrt 0 = 0`;
used only to instantiate `sqrtFn` at concrete inputs. -/
def ratSqrt (q : ℚ) : ℚ :=
  if q ≤ 0 then 0 else ((Nat.sqrt (q.num.toNat * q.den) : ℚ) / (q.den : ℚ))

/-! ## NaN-aware covariance and portfolio variance

`covEntry` is exact only for tables with at least two rows; pandas `cov()` with
its `ddof=1` default puts NaN in every entry when a pair of columns has fewer
than two joint observations, and `np.dot` then propagates that NaN instead of
failing or returning a number.  The following mirror of the `var_p` pipeline
keeps that NaN path explicit. -/

/-- Entry `(i, j)` of `returns_df.cov()` with the NaN case kept: with fewer
than two rows the `ddof=1` covariance is NaN, otherwise it is the finite value
`covEntry`. -/
def covEntryF {n k : ℕ} (x : Fin n → Fin k → ℚ) (i j : Fin k) : PdFloat :=
  if n < 2 then PdFloat.nan else PdFloat.val (covEntry x i j)

/-- The NaN-aware covariance matrix as the nested list `np.dot` receives. -/
def covListF (n k : ℕ) (x : Fin n → Fin k → ℚ) : List (List PdFloat) :=
  List.ofFn (fun i => List.ofFn (fun j => covEntryF x i j))

/-- IEEE-754 addition as numpy performs it: NaN propagates, opposite
infinities give NaN, an infinity dominates any finite value. -/
def pdAdd : PdFloat → PdFloat → PdFloat
  | .nan, _ => .nan
  | _, .nan => .nan
  | .val p, .val q => .val (p + q)
  | .inf, .inf => .inf
  | .inf, .ninf => .nan
  | .ninf, .inf => .nan
  | .ninf, .ninf => .ninf
  | .inf, .val _ => .inf
  | .val _, .inf => .inf
  | .ninf, .val _ => .ninf
  | .val _, .ninf => .ninf

/-- IEEE-754 multiplication as numpy performs it: NaN propagates, `0 × ±inf`
is NaN, otherwise an infinity keeps the product's sign. -/
def pdMul : PdFloat → PdFloat → PdFloat
  | .nan, _ => .nan
  | _, .nan => .nan
  | .val p, .val q => .val (p * q)
  | .val p, .inf => if p = 0 then .nan else if 0 < p then .inf else .ninf
  | .inf, .val p => if p = 0 then .nan else if 0 < p then .inf else .ninf
  | .val p, .ninf => if p = 0 then .nan else if 0 < p then .ninf else .inf
  | .ninf, .val p => if p = 0 then .nan else if 0 < p then .ninf else .inf
  | .inf, .inf => .inf
  | .inf, .ninf => .ninf
  | .ninf, .inf => .ninf
  | .ninf, .ninf => .inf

/-- The arithmetic core of `np.dot` on float vectors: sum of pairwise
products, with NaN/infinity propagation. -/
def dotListF : List PdFloat → List PdFloat → PdFloat
  | a :: as, b :: bs => pdAdd (pdMul a b) (dotListF as bs)
  | _, _ => PdFloat.val 0

/-- `np.dot(vector, vector)` on floats: the shapes-not-aligned error exactly as
before, NaN-propagating arithmetic inside. -/
def np_dot_vvF (a b : List PdFloat) : Except String PdFloat :=
  if a.length = b.length then .ok (dotListF a b) else .error "shapes not aligned"

/-- `np.dot(matrix, vector)` on floats: the shapes-not-aligned error exactly as
before, NaN-propagating arithmetic inside. -/
def np_dot_mvF (m : List (List PdFloat)) (v : List PdFloat) : Except String (List PdFloat) :=
  if m.all (fun row => row.length == v.length) then .ok (m.map (fun row => dotListF row v))
  else .error "shapes not aligned"

/-- The `var_p` pipeline of Risk.py line 78 over the NaN-aware covariance
matrix: inner matrix-vector product, then outer scalar product. -/
def var_pF (mat : List (List PdFloat)) (w : List PdFloat) : Except String PdFloat :=
  match np_dot_mvF mat w with
  | .ok u => np_dot_vvF w u
  | .error e => .error e

/-- A concrete single-row, single-column return table (one day of returns). -/
def x1 : Fin 1 → Fin 1 → ℚ :=
  fun _ _ => 5

/-- A concrete matching weight vector for the single-column table. -/
def w1 : Fin 1 → ℚ :=
  fun _ => 1

/-! ## Theorems -/

/-- Claim C1 (code-bug evidence): on a two-ticker table with one date, prices
10 and 20 and one share of each, the code's portfolio value series is `[20]` —
`prices_df.iloc[:, 1:].sum(axis=1)` omits the first ticker's scaled column,
although the adjacent comment says "sums each row" — while the specified
per-date value `Σ price × shares` is `[30]`. -/
theorem portfolio_value_series_drops_first_ticker :
    totalValueSeries [[10, 20]] [1, 1] = [20] ∧
    specPortfolioValueSeries [[10, 20]] [1, 1] = [30] := by
  constructor <;> norm_num [totalValueSeries, specPortfolioValueSeries]

/-- Claim C6: the portfolio total skips positions whose current-price lookup
returned None instead of counting them as zero — it equals the sum of
`shares × price` over exactly the positions with a defined price. -/
theorem total_value_excludes_missing_prices (price : String → Option ℚ)
    (ps : List Position) :
    total_portfolio_value price ps = definedTotal price ps := by
  induction ps with
  | nil => rfl
  | cons p ps ih =>
    cases h : price p.ticker <;>
      simp_all [total_portfolio_value, definedTotal, pdSumOpt, marketValue]

/-- Claim C9: `update_stock` with `shares ≤ 0` removes every row carrying the
given id from the store, and with `shares > 0` the addressed row reappears with
the new account, shares and cost basis. -/
theorem update_stock_delete_or_update (store : List StockRow) (i : ℕ)
    (a : String) (s c : ℚ) :
    (s ≤ 0 → ((update_stock i a s c store).all (fun r => r.id != i)) = true) ∧
    (0 < s → ∀ r ∈ store, r.id = i →
      { r with account := a, shares := s, cost_basis := c } ∈ update_stock i a s c store) := by
  constructor
  · intro hs
    unfold update_stock
    rw [if_neg (not_lt.mpr hs), List.all_eq_true]
    intro r hr
    exact (List.mem_filter.mp hr).2
  · intro hs r hr hid
    unfold update_stock
    rw [if_pos hs]
    have hfr : { r with account := a, shares := s, cost_basis := c } =
        (fun r => if r.id = i then { r with account := a, shares := s, cost_basis := c }
                  else r) r := by
      simp [hid]
    rw [hfr]
    exact List.mem_map_of_mem _ hr

/-- Witness for claim C9 on the concrete two-row store: deleting id 1 leaves no
row with id 1, and updating id 1 with shares 7 produces the updated row. -/
theorem update_stock_delete_or_update_witness :
    ((update_stock 1 "HSA" 0 1 demoStore).all (fun r => r.id != 1)) = true ∧
    (⟨1, "AAPL", "HSA", 7, 9⟩ : StockRow) ∈ update_stock 1 "HSA" 7 9 demoStore := by
  refine ⟨(update_stock_delete_or_update demoStore 1 "HSA" 0 1).1 le_rfl, ?_⟩
  exact (update_stock_delete_or_update demoStore 1 "HSA" 7 9).2 (by norm_num)
    ⟨1, "AAPL", "Webull", 5, 10⟩ (by simp [demoStore]) rfl

/-- Claim C10 (frame): every stored row with a different id survives
`update_stock` unchanged, and when `shares > 0` the ticker and id columns of
the whole store are untouched (only account, shares and cost basis of the
addressed row can change). -/
theorem update_stock_frame (store : List StockRow) (i : ℕ) (a : String) (s c : ℚ) :
    (∀ r ∈ store, r.id ≠ i → r ∈ update_stock i a s c store) ∧
    (0 < s →
      (update_stock i a s c store).map StockRow.ticker = store.map StockRow.ticker ∧
      (update_stock i a s c store).map StockRow.id = store.map StockRow.id) := by
  constructor
  · intro r hr hne
    unfold update_stock
    by_cases hs : (0 : ℚ) < s
    · rw [if_pos hs]
      have hfr : r =
          (fun r => if r.id = i then { r with account := a, shares := s, cost_basis := c }
                    else r) r := by
        simp [hne]
      rw [hfr]
      exact List.mem_map_of_mem _ hr
    · rw [if_neg hs]
      exact List.mem_filter.mpr ⟨hr, by simpa using hne⟩
  · intro hs
    unfold update_stock
    rw [if_pos hs]
    constructor
    · rw [List.map_map]
      refine List.map_congr_left (fun r _ => ?_)
      by_cases h : r.id = i <;> simp [h]
    · rw [List.map_map]
      refine List.map_congr_left (fun r _ => ?_)
      by_cases h : r.id = i <;> simp [h]

/-- Witness for claim C10 on the concrete two-row store: the row with id 2
survives an update addressed to id 1, and the ticker column is unchanged. -/
theorem update_stock_frame_witness :
    (⟨2, "MSFT", "Fidelity", 3, 20⟩ : StockRow) ∈ update_stock 1 "HSA" 7 9 demoStore ∧
    (update_stock 1 "HSA" 7 9 demoStore).map StockRow.ticker = demoStore.map StockRow.ticker := by
  refine ⟨?_, ((update_stock_frame demoStore 1 "HSA" 7 9).2 (by norm_num)).1⟩
  exact (update_stock_frame demoStore 1 "HSA" 7 9).1
    ⟨2, "MSFT", "Fidelity", 3, 20⟩ (by simp [demoStore]) (by decide)

/-- Claim C4: the covariance matrix computed from any return table is symmetric,
and each diagonal entry is the sample variance (denominator `N - 1`) of the
corresponding column. -/
theorem cov_symmetric_diagonal_variance {n k : ℕ} (x : Fin n → Fin k → ℚ)
    (i j : Fin k) :
    covEntry x i j = covEntry x j i ∧ covEntry x i i = sampleVarCol x i := by
  constructor
  · unfold covEntry
    congr 1
    exact Finset.sum_congr rfl (fun t _ => mul_comm _ _)
  · unfold covEntry sampleVarCol
    congr 1
    exact Finset.sum_congr rfl (fun t _ => (pow_two _).symm)

/-- Claim C7 (amended part): the risk ranking is a permutation of the input
sorted by descending volatility.  The original claim's alphabetical tie-break
is refuted by `risk_ranking_ties_not_alphabetical`. -/
theorem risk_ranking_sorted_descending (xs : List (String × ℚ)) :
    (sort_values_desc xs).Perm xs ∧
    (sort_values_desc xs).Pairwise (fun a b => b.2 ≤ a.2) := by
  constructor
  · exact (List.reverse_perm _).trans (List.perm_insertionSort valLe xs)
  · show ((List.insertionSort valLe xs).reverse).Pairwise _
    rw [List.pairwise_reverse]
    exact List.sorted_insertionSort valLe xs

/-- Claim C7 (counterexample): two assets with equal volatility come out in
the order ZZZ before AAA — the reverse of ticker-alphabetical order, since AAA
precedes ZZZ alphabetically — because `sort_values` consults only the
volatility values, never the ticker labels. -/
theorem risk_ranking_ties_not_alphabetical :
    sort_values_desc [("AAA", 1), ("ZZZ", 1)] = [("ZZZ", 1), ("AAA", 1)] := by
  norm_num [sort_values_desc, List.insertionSort, List.orderedInsert, valLe]

/-- The arithmetic core of `np.dot` on two vectors of the same length `k` is
the finite sum of componentwise products. -/
theorem dotList_ofFn : ∀ {k : ℕ} (a b : Fin k → ℚ),
    dotList (List.ofFn a) (List.ofFn b) = ∑ i, a i * b i := by
  intro k
  induction k with
  | zero => intro a b; simp [dotList]
  | succ m ih =>
    intro a b
    rw [List.ofFn_succ, List.ofFn_succ]
    show a 0 * b 0 + dotList _ _ = _
    rw [ih, Fin.sum_univ_succ]

/-- The quadratic form over the sample covariance matrix is a sum of squares
divided by `N - 1`. -/
theorem quadForm_eq {n k : ℕ} (x : Fin n → Fin k → ℚ) (w : Fin k → ℚ) :
    quadForm x w =
      (∑ t, (∑ i, w i * (x t i - colMean x i)) ^ 2) / ((n : ℚ) - 1) := by
  unfold quadForm covEntry
  have h1 : ∀ i j : Fin k,
      w i * ((∑ t, (x t i - colMean x i) * (x t j - colMean x j)) / ((n : ℚ) - 1)) * w j =
        (∑ t, (w i * (x t i - colMean x i)) * (w j * (x t j - colMean x j))) / ((n : ℚ) - 1) := by
    intro i j
    have h2 : w i * (∑ t, (x t i - colMean x i) * (x t j - colMean x j)) * w j
        = ∑ t, (w i * (x t i - colMean x i)) * (w j * (x t j - colMean x j)) := by
      rw [Finset.mul_sum, Finset.sum_mul]
      exact Finset.sum_congr rfl (fun t _ => by ring)
    rw [← h2]
    ring
  simp only [h1]
  simp only [← Finset.sum_div]
  congr 1
  have h3 : ∀ i : Fin k,
      (∑ j, ∑ t, (w i * (x t i - colMean x i)) * (w j * (x t j - colMean x j))) =
        ∑ t, ∑ j, (w i * (x t i - colMean x i)) * (w j * (x t j - colMean x j)) :=
    fun i => Finset.sum_comm
  simp only [h3]
  rw [Finset.sum_comm]
  refine Finset.sum_congr rfl (fun t _ => ?_)
  rw [← Finset.sum_mul_sum]
  rw [← pow_two]

/-- The quadratic form `wᵀ · Σ · w` over the sample covariance matrix is
non-negative for every weight vector: for `n ≥ 2` it is a sum of squares over a
positive denominator, and for `n ≤ 1` every covariance entry degenerates to 0. -/
theorem quadForm_nonneg {n k : ℕ} (x : Fin n → Fin k → ℚ) (w : Fin k → ℚ) :
    0 ≤ quadForm x w := by
  rw [quadForm_eq]
  rcases Nat.lt_or_ge n 2 with hn | hn
  · interval_cases n
    · simp
    · norm_num
  · apply div_nonneg
    · exact Finset.sum_nonneg (fun t _ => sq_nonneg _)
    · have h2 : (2 : ℚ) ≤ (n : ℚ) := by exact_mod_cast hn
      linarith

/-- Claim C3 (amended): `var_p` fails with the `np.dot` shapes-not-aligned
error whenever the weight vector's length differs from the number of
covariance-matrix columns (the shape check never looks at the entries, so this
holds for every table), and on every matching-length weight vector over a
return table with at least two rows — so that the `ddof=1` covariance entries
are finite — it returns exactly the quadratic form `wᵀ · Σ · w`, which is
non-negative.  The original claim's universal scope over *every* table is
refuted by `var_p_single_row_gives_nan`: with fewer than two rows the program
propagates NaN instead. -/
theorem var_p_dimension_check_and_quadratic_form (n k : ℕ) (x : Fin n → Fin k → ℚ) :
    (∀ w : List ℚ, w.length ≠ k →
      var_p (covList n k x) w = Except.error "shapes not aligned") ∧
    (2 ≤ n → ∀ wf : Fin k → ℚ,
      var_p (covList n k x) (List.ofFn wf) = Except.ok (quadForm x wf) ∧
      0 ≤ quadForm x wf) := by
  constructor
  · intro w hw
    unfold var_p np_dot_mv
    cases k with
    | zero =>
      simp only [covList, List.ofFn_zero, List.all_nil, if_pos, List.map_nil]
      unfold np_dot_vv
      rw [if_neg (by simpa using hw)]
    | succ m =>
      rw [if_neg ?hcond]
      case hcond =>
        intro hall
        rw [List.all_eq_true] at hall
        have hmem : (List.ofFn fun j => covEntry x (0 : Fin (m + 1)) j) ∈ covList n (m + 1) x := by
          unfold covList
          exact (List.mem_ofFn _ _).mpr ⟨0, rfl⟩
        have hlen := hall _ hmem
        rw [List.length_ofFn] at hlen
        exact hw (beq_iff_eq.mp hlen).symm
  · intro _hn wf
    refine ⟨?_, quadForm_nonneg x wf⟩
    have hall : ((covList n k x).all fun row => row.length == (List.ofFn wf).length) = true := by
      rw [List.all_eq_true]
      intro row hrow
      unfold covList at hrow
      rcases (List.mem_ofFn _ _).mp hrow with ⟨i, rfl⟩
      rw [List.length_ofFn, List.length_ofFn]
      exact beq_self_eq_true k
    have hmv : np_dot_mv (covList n k x) (List.ofFn wf) =
        Except.ok (List.ofFn fun i => dotList (List.ofFn fun j => covEntry x i j) (List.ofFn wf)) := by
      unfold np_dot_mv
      rw [if_pos hall]
      unfold covList
      rw [List.map_ofFn]
      rfl
    unfold var_p
    rw [hmv]
    show np_dot_vv (List.ofFn wf) _ = _
    unfold np_dot_vv
    rw [if_pos (by rw [List.length_ofFn, List.length_ofFn])]
    congr 1
    rw [dotList_ofFn]
    unfold quadForm
    refine Finset.sum_congr rfl (fun i _ => ?_)
    rw [dotList_ofFn, Finset.mul_sum]
    exact Finset.sum_congr rfl (fun j _ => by ring)

/-- Witness for claim C3 at the concrete 2-row, 2-column table `x0`: a
length-1 weight vector triggers the dimension-mismatch error, and the
quadratic form at the matching weight vector `w0` is non-negative. -/
theorem var_p_quadratic_form_witness :
    var_p (covList 2 2 x0) [5] = Except.error "shapes not aligned" ∧
    0 ≤ quadForm x0 w0 := by
  refine ⟨(var_p_dimension_check_and_quadratic_form 2 2 x0).1 [5] (by simp),
    ((var_p_dimension_check_and_quadratic_form 2 2 x0).2 (by norm_num) w0).2⟩

/-- Claim C3 (counterexample): on the single-row return table `x1` — one day
of returns, as in a two-day price window — pandas `cov()` with `ddof=1` makes
every covariance entry NaN, and `np.dot` with the matching weight vector
`[1.0]` returns NaN: the computation neither fails with a dimension error nor
produces the (non-negative, rational) quadratic form — NaN is a distinct
float, not `wᵀ · Σ · w`. -/
theorem var_p_single_row_gives_nan :
    var_pF (covListF 1 1 x1) [PdFloat.val 1] = Except.ok PdFloat.nan ∧
    PdFloat.nan ≠ PdFloat.val (quadForm x1 w1) := by
  exact ⟨rfl, fun h => PdFloat.noConfusion h⟩

/-- Backward fill preserves the number of rows. -/
theorem bfill_length : ∀ l : List (Option ℚ), (bfill l).length = l.length := by
  intro l
  induction l with
  | nil => rfl
  | cons x xs ih => simp only [bfill, List.length_cons, ih]

/-- The head of a backward-filled column is the column's first observed value. -/
theorem bfill_headD : ∀ l : List (Option ℚ), (bfill l).headD none = l.findSome? id := by
  intro l
  induction l with
  | nil => rfl
  | cons x xs ih =>
    cases x with
    | some v => rfl
    | none => simpa [bfill, List.findSome?] using ih

/-- Cell `t` of a backward-filled column is the first observed value at
position `t` or later. -/
theorem bfill_get? : ∀ (l : List (Option ℚ)) (t : ℕ), t < l.length →
    (bfill l).get? t = some (firstSubsequentObs l t) := by
  intro l
  induction l with
  | nil => intro t ht; simp at ht
  | cons x xs ih =>
    intro t ht
    cases t with
    | zero =>
      cases x with
      | some v => rfl
      | none =>
        show some ((bfill xs).headD none) = some (firstSubsequentObs (none :: xs) 0)
        rw [bfill_headD xs]
        rfl
    | succ m =>
      show (bfill xs).get? m = some (firstSubsequentObs (x :: xs) (m + 1))
      exact ih m (Nat.lt_of_succ_lt_succ ht)

/-- Forward fill preserves the number of rows. -/
theorem ffillFrom_length : ∀ (p : Option ℚ) (l : List (Option ℚ)),
    (ffillFrom p l).length = l.length := by
  intro p l
  induction l generalizing p with
  | nil => rfl
  | cons x xs ih => cases x <;> simp only [ffillFrom, List.length_cons, ih]

/-- `pct_change` produces one return cell per input date: no row is dropped. -/
theorem pct_change_length (l : List (Option ℚ)) : (pct_change l).length = l.length := by
  have hlen : (ffill l).length = l.length := ffillFrom_length none l
  unfold pct_change
  cases hf : ffill l with
  | nil =>
    rw [hf] at hlen
    simp_all
  | cons y ys =>
    rw [hf] at hlen
    rw [← hlen]
    simp only [List.length_cons, List.length_zipWith]
    omega

/-- Claim C5 (amended): backward fill gives every cell the nearest
same-or-subsequent observed price, a cell with no subsequent observation stays
missing — but such a date is not dropped before returns are computed: the
`pct_change` output keeps one row per input date. -/
theorem bfill_semantics_and_returns_keep_rows (col : List (Option ℚ)) (t : ℕ)
    (ht : t < col.length) :
    (bfill col).get? t = some (firstSubsequentObs col t) ∧
    (firstSubsequentObs col t = none → (bfill col).get? t = some none) ∧
    (pct_change (bfill col)).length = col.length := by
  refine ⟨bfill_get? col t ht, fun h => ?_, ?_⟩
  · rw [bfill_get? col t ht, h]
  · rw [pct_change_length, bfill_length]

/-- Claim C5 (counterexample): a column whose leading date has no subsequent
observed value keeps that date through the whole pipeline — backward fill
leaves both cells missing and `pct_change` still emits two return rows (both
missing), so the date is not dropped before returns are computed. -/
theorem missing_leading_date_not_dropped :
    bfill [none, none] = [none, none] ∧
    pct_change (bfill [none, none]) = [none, none] := by
  exact ⟨rfl, rfl⟩

/-- Witness for claim C5: at position 0 of the column `[none, some 3]` the
backward fill pulls the later observation 3 backward; in the all-missing
column the cell stays missing; and the return series of the first column keeps
both rows. -/
theorem bfill_semantics_witness :
    (bfill [none, some 3]).get? 0 = some (some 3) ∧
    (bfill [none, none]).get? 0 = some none ∧
    (pct_change (bfill [none, some 3])).length = 2 := by
  refine ⟨?_, ?_, ?_⟩
  · exact (bfill_semantics_and_returns_keep_rows [none, some 3] 0 (by simp)).1
  · exact (bfill_semantics_and_returns_keep_rows [none, none] 0 (by simp)).2.1 rfl
  · exact (bfill_semantics_and_returns_keep_rows [none, some 3] 0 (by simp)).2.2

/-- A period-over-period change of an unchanged value is exactly 0. -/
theorem pctRet_self (c : ℚ) : pctRet c c = PdFloat.val 0 := by
  unfold pctRet
  by_cases hc : c = 0
  · simp [hc]
  · rw [if_neg hc, div_self hc]
    norm_num

/-- Filtering a replicated list by a predicate its element satisfies keeps it. -/
theorem replicate_filter_pos {α : Type} (p : α → Bool) (a : α) (h : p a = true) :
    ∀ m : ℕ, (List.replicate m a).filter p = List.replicate m a := by
  intro m
  induction m with
  | zero => rfl
  | succ q ih => simp [List.replicate_succ, List.filter_cons, h, ih]

/-- `any` over a replicated list whose element fails the predicate is false. -/
theorem replicate_any_neg {α : Type} (p : α → Bool) (a : α) (h : p a = false) :
    ∀ m : ℕ, (List.replicate m a).any p = false := by
  intro m
  induction m with
  | zero => rfl
  | succ q ih => simp [List.replicate_succ, h, ih]

/-- Zipping a constant column against its tail yields constant zero changes. -/
theorem zipWith_pctRet_replicate : ∀ (m : ℕ) (c : ℚ),
    List.zipWith pctRet (List.replicate (m + 1) c) (List.replicate m c) =
      List.replicate m (PdFloat.val 0) := by
  intro m
  induction m with
  | zero => intro c; rfl
  | succ p ih =>
    intro c
    show pctRet c c :: List.zipWith pctRet (List.replicate (p + 1) c) (List.replicate p c) = _
    rw [pctRet_self, ih]
    rfl

/-- The daily-return series of a constant value series is identically 0. -/
theorem dailyReturns_replicate (m : ℕ) (c : ℚ) :
    dailyReturns (List.replicate (m + 1) c) = List.replicate (m + 1) (PdFloat.val 0) := by
  show PdFloat.val 0 ::
    List.zipWith pctRet (List.replicate (m + 1) c) (List.replicate m c) = _
  rw [zipWith_pctRet_replicate m c]
  rfl

/-- The pandas mean of a nonempty all-zero return series is 0. -/
theorem pdMeanL_replicate_zero (m : ℕ) :
    pdMeanL (List.replicate (m + 1) (PdFloat.val 0)) = PdFloat.val 0 := by
  simp only [pdMeanL]
  rw [replicate_filter_pos (fun x => x != PdFloat.nan) (PdFloat.val 0) rfl (m + 1)]
  rw [replicate_any_neg (fun x => x == PdFloat.inf) (PdFloat.val 0) rfl (m + 1)]
  rw [replicate_any_neg (fun x => x == PdFloat.ninf) (PdFloat.val 0) rfl (m + 1)]
  simp [List.map_replicate, PdFloat.toQ, List.sum_replicate]

/-- The pandas sample standard deviation of a single observation is NaN. -/
theorem pdStdL_single (sqrtFn : ℚ → ℚ) :
    pdStdL sqrtFn [PdFloat.val 0] = PdFloat.nan := rfl

/-- The pandas sample standard deviation of an all-zero series with at least
two observations is `sqrtFn 0`, i.e. 0 for any square root. -/
theorem pdStdL_replicate_zero (sqrtFn : ℚ → ℚ) (h0 : sqrtFn 0 = 0) (m : ℕ) :
    pdStdL sqrtFn (List.replicate (m + 2) (PdFloat.val 0)) = PdFloat.val 0 := by
  simp only [pdStdL]
  rw [replicate_filter_pos (fun x => x != PdFloat.nan) (PdFloat.val 0) rfl (m + 2)]
  rw [if_neg (by simp)]
  rw [replicate_any_neg (fun x => x == PdFloat.inf || x == PdFloat.ninf) (PdFloat.val 0) rfl
    (m + 2)]
  have hv : sampleVarL (List.replicate (m + 2) (0 : ℚ)) = 0 := by
    unfold sampleVarL
    simp [List.map_replicate, List.sum_replicate]
  simp [PdFloat.toQ, hv, h0]

/-- Claim C2 (amended): for every constant reconstructed portfolio value
series, the Sharpe computation divides a zero mean by a zero (or undefined)
standard deviation and returns the float NaN artifact — there is no distinct
"undefined" result in the code path. -/
theorem portfolio_sharpe_constant_value_is_nan (sqrtFn : ℚ → ℚ) (n : ℕ) (c : ℚ)
    (h0 : sqrtFn 0 = 0) :
    portfolioSharpe sqrtFn (List.replicate n c) = PdFloat.nan := by
  match n with
  | 0 => rfl
  | 1 =>
    simp only [portfolioSharpe]
    rw [dailyReturns_replicate 0 c]
    rw [pdMeanL_replicate_zero 0]
    rw [show List.replicate (0 + 1) (PdFloat.val 0) = [PdFloat.val 0] from rfl]
    rw [pdStdL_single sqrtFn]
    rfl
  | (m + 2) =>
    simp only [portfolioSharpe]
    rw [dailyReturns_replicate (m + 1) c]
    rw [pdMeanL_replicate_zero (m + 1), pdStdL_replicate_zero sqrtFn h0 m]
    rfl

/-- Claim C2 (counterexample): a concrete portfolio whose reconstructed value
series is the constant `[5, 5, 5]` makes the reported Sharpe ratio the NaN
produced by the 0/0 division — not a distinct "undefined" sentinel, which the
computation never produces. -/
theorem portfolio_sharpe_no_undefined_sentinel :
    portfolioSharpe ratSqrt (totalValueSeries [[3, 5], [4, 5], [9, 5]] [1, 1]) =
      PdFloat.nan := by
  have hv : totalValueSeries [[3, 5], [4, 5], [9, 5]] [1, 1] = List.replicate 3 5 := by
    norm_num [totalValueSeries, List.replicate]
  rw [hv]
  simp only [portfolioSharpe]
  rw [dailyReturns_replicate 2 5]
  rw [pdMeanL_replicate_zero 2]
  rw [show List.replicate (2 + 1) (PdFloat.val 0) = List.replicate (1 + 2) (PdFloat.val 0)
    from rfl]
  rw [pdStdL_replicate_zero ratSqrt (by simp [ratSqrt]) 1]
  rfl

/-- Witness for claim C2's amended theorem at the concrete constant series of
four sevens, with the concrete rational square root. -/
theorem portfolio_sharpe_constant_value_is_nan_witness :
    portfolioSharpe ratSqrt (List.replicate 4 7) = PdFloat.nan :=
  portfolio_sharpe_constant_value_is_nan ratSqrt 4 7 (by simp [ratSqrt])

/-- Claim C8: in the scenario with one dividend payer (rate $2.00/share, 10
shares) and one position whose fundamentals report a null dividend rate, the
non-payer yields no record at all, the total yearly dividend income is $20.00,
and the average yield is exactly the payer's displayed yield — the non-payer
is counted in neither aggregate, in particular not as 0%. -/
theorem dividend_scenario_totals (y pr othY othPr : Option ℚ) (e othE : Option Int)
    (s2 : ℚ) :
    (dividend_data (scenarioFund y pr e othY othPr othE) (scenarioPortfolio s2)).map
      (fun r => r.ticker) = ["PAY"] ∧
    total_yearly_dividends
      (dividend_data (scenarioFund y pr e othY othPr othE) (scenarioPortfolio s2)) = 20 ∧
    average_yield
      (dividend_data (scenarioFund y pr e othY othPr othE) (scenarioPortfolio s2)) =
      some (round2 ((y.getD 0) * 100)) := by
  have hd : dividend_data (scenarioFund y pr e othY othPr othE) (scenarioPortfolio s2) =
      [⟨"PAY", 10, 2, (y.getD 0) * 100, (pr.getD 0) * 100, e, 10 * 2⟩] := by
    simp [dividend_data, scenarioFund, scenarioPortfolio, get_dividend_info]
  refine ⟨?_, ?_, ?_⟩
  · rw [hd]
    rfl
  · rw [hd]
    have h1 : total_yearly_dividends
        [⟨"PAY", 10, 2, (y.getD 0) * 100, (pr.getD 0) * 100, e, 10 * 2⟩] =
        round2 (10 * 2) := by
      unfold total_yearly_dividends
      rw [List.map_cons, List.map_nil, List.sum_cons, List.sum_nil, add_zero]
    rw [h1]
    unfold round2
    rw [show ((10 : ℚ) * 2) * 100 = ((2000 : ℤ) : ℚ) by norm_num, round_intCast]
    norm_num
  · rw [hd]
    unfold average_yield
    rw [if_neg (by simp)]
    simp
